import Mathlib

/-!
Shallow embedding of the podcast transcript browser frontend
(`frontend/app.js` and the chat module) and proofs about its
filter/sort/search pipeline, chat-context assembly, conversation-history
cap and error paths.

Strings are modelled as `List Char` (JavaScript strings are sequences of
UTF-16 code units; all operations used by the app are per-code-unit).
JavaScript `Set` values are modelled as lists whose membership is what the
code queries; in-place array mutation is modelled by explicit state
passing.
-/

namespace Podcast

/-- A JavaScript string, modelled as its list of code units. -/
abbrev Str := List Char

/-- The set of characters matched by JavaScript `\s` (also the set trimmed
by `String.prototype.trim`). -/
def jsWs (c : Char) : Bool :=
  c.toNat = 9 || c.toNat = 10 || c.toNat = 11 || c.toNat = 12 ||
  c.toNat = 13 || c.toNat = 32 || c.toNat = 160 || c.toNat = 0x1680 ||
  (0x2000 ≤ c.toNat && c.toNat ≤ 0x200a) || c.toNat = 0x2028 ||
  c.toNat = 0x2029 || c.toNat = 0x202f || c.toNat = 0x205f ||
  c.toNat = 0x3000 || c.toNat = 0xfeff

/-- JavaScript `String.prototype.trim`: strip leading and trailing
whitespace. -/
def jsTrim (s : Str) : Str :=
  ((s.dropWhile jsWs).reverse.dropWhile jsWs).reverse

/-- JavaScript `String.prototype.toLowerCase`, restricted to the ASCII
case mapping (`Char.toLower`). -/
def jsLower (s : Str) : Str :=
  s.map Char.toLower

/-- Whether `needle` occurs at the very start of `hay`
(JavaScript `String.prototype.startsWith`). -/
def jsStartsWith : (hay needle : Str) → Bool
  | _, [] => true
  | [], _ :: _ => false
  | c :: cs, d :: ds => c = d && jsStartsWith cs ds

/-- JavaScript `String.prototype.includes`: substring occurrence. -/
def jsIncludes : (hay needle : Str) → Bool
  | [], needle => jsStartsWith [] needle
  | hay@(_ :: cs), needle => jsStartsWith hay needle || jsIncludes cs needle

/-- JavaScript `Array.prototype.join(' ')`. -/
def joinSpace : List Str → Str
  | [] => []
  | [k] => k
  | k :: rest => k ++ ' ' :: joinSpace rest

/-- One episode record of the index document (`data/index.json`), as read
by `app.js`. -/
structure Episode where
  slug : Str
  guest : Str
  title : Str
  description : Str
  keywords : List Str
  duration : Str
  duration_seconds : Nat
  view_count : Nat
  youtube_url : Str
  transcript_path : Str
deriving DecidableEq

/-- The index document: `{ total_episodes, all_keywords, episodes }`. -/
structure IndexData where
  total_episodes : Nat
  all_keywords : List Str
  episodes : List Episode
deriving DecidableEq

/-- The three values `AppState.currentSort` can take
(`'views' | 'duration' | 'title'`). -/
inductive SortMode where
  | views
  | duration
  | title
deriving DecidableEq

/-- The keyword stage of `applyFilters` (app.js lines 146-153): when at
least one keyword is selected, keep an episode only if its keyword list
includes every selected keyword (AND semantics); with no selection the
stage is skipped. -/
def keywordFilterStep (sel : List Str) (eps : List Episode) : List Episode :=
  if sel.isEmpty then eps
  else eps.filter (fun ep => sel.all (fun k => ep.keywords.contains k))

/-- The search text built for one episode by `applyFilters`
(app.js lines 158-163): a template literal interpolating guest, title,
description and the space-joined keywords, each preceded by a newline and
16 spaces of indentation and followed by a final newline and 12 spaces,
then lower-cased. -/
def searchText (ep : Episode) : Str :=
  jsLower
    ('\n' :: List.replicate 16 ' ' ++ ep.guest ++
     '\n' :: List.replicate 16 ' ' ++ ep.title ++
     '\n' :: List.replicate 16 ' ' ++ ep.description ++
     '\n' :: List.replicate 16 ' ' ++ joinSpace ep.keywords ++
     '\n' :: List.replicate 12 ' ')

/-- The search stage of `applyFilters` (app.js lines 156-167): when the
stored query is non-empty, keep an episode only if its search text
includes the query as a substring. -/
def searchFilterStep (q : Str) (eps : List Episode) : List Episode :=
  if q.isEmpty then eps
  else eps.filter (fun ep => jsIncludes (searchText ep) q)

/-- Function `applyFilters` (app.js lines 143-169), restricted to its output value:
start from the full list, apply the keyword stage, then the search stage.
(The subsequent in-place sort is `sortEpisodes`, modelled separately.) -/
def applyFilters (eps : List Episode) (sel : List Str) (q : Str) : List Episode :=
  searchFilterStep q (keywordFilterStep sel eps)

/-- Function `handleSearch` (app.js lines 126-129) normalises the raw input value
before storing it as the query: trim, then lower-case. -/
def handleSearchQuery (raw : Str) : Str :=
  jsLower (jsTrim raw)

/-- Lexicographic `≤` on code-unit sequences: the model used here for
`String.prototype.localeCompare(b) <= 0` (the app relies on it only as a
total lexicographic comparison on guest names). -/
def strLe : Str → Str → Bool
  | [], _ => true
  | _ :: _, [] => false
  | a :: as, b :: bs => if a < b then true else if b < a then false else strLe as bs

/-- Function `sortEpisodes` (app.js lines 178-190), as the value it leaves in
`AppState.filteredEpisodes`: a stable sort (ECMAScript
`Array.prototype.sort` is stable) by the comparator selected by the
current sort mode — descending `view_count`, descending
`duration_seconds`, or ascending guest name. -/
def sortEpisodes (mode : SortMode) (eps : List Episode) : List Episode :=
  match mode with
  | .views => eps.mergeSort (fun a b => decide (b.view_count ≤ a.view_count))
  | .duration => eps.mergeSort (fun a b => decide (b.duration_seconds ≤ a.duration_seconds))
  | .title => eps.mergeSort (fun a b => strLe a.guest b.guest)

/-- The open detail view: the looked-up episode together with its parsed
transcript body (`AppState.currentEpisode = { ...episode, fullTranscript }`,
app.js line 271). -/
structure CurrentEpisode where
  episode : Episode
  fullTranscript : Str
deriving DecidableEq

/-- The mutable application state of `app.js` (the `AppState` object). -/
structure AppState where
  indexData : IndexData
  allEpisodes : List Episode
  filteredEpisodes : List Episode
  selectedKeywords : List Str
  currentSort : SortMode
  searchQuery : Str
  currentEpisode : Option CurrentEpisode
deriving DecidableEq

/-- Number of keyword occurrences counted for `k` by
`renderKeywordFilters` (app.js lines 82-87): one per appearance in an
episode's keyword list. -/
def keywordCount (eps : List Episode) (k : Str) : Nat :=
  (eps.map (fun ep => ep.keywords.count k)).sum

/-- Function `renderKeywordFilters` (app.js lines 76-106) as a state transformer:
line 90 calls `AppState.indexData.all_keywords.sort(...)`, which sorts
that array IN PLACE by descending per-keyword episode count; the rest of
the function only writes to the DOM. -/
def renderKeywordFilters (st : AppState) : AppState :=
  { st with indexData :=
    { st.indexData with all_keywords :=
      (st.indexData.all_keywords.mergeSort
        (fun a b => decide (keywordCount st.allEpisodes b ≤ keywordCount st.allEpisodes a))) } }

/-- Function `applyFilters` (app.js lines 143-173) as a state transformer: rebuilds
`filteredEpisodes` from `allEpisodes` and the current filter state, then
sorts it in place via `sortEpisodes`. -/
def applyFiltersState (st : AppState) : AppState :=
  { st with filteredEpisodes :=
      (sortEpisodes st.currentSort
        (applyFilters st.allEpisodes st.selectedKeywords st.searchQuery)) }

/-- Function `sortEpisodes` as the state transformer invoked by `handleSortChange`
(app.js lines 134-138): sorts `filteredEpisodes` in place. -/
def sortEpisodesState (st : AppState) : AppState :=
  { st with filteredEpisodes := sortEpisodes st.currentSort st.filteredEpisodes }

/-- Function `handleSearch` (app.js lines 126-129) as a state transformer: store
the normalised query, then re-run `applyFilters`. -/
def handleSearchState (st : AppState) (raw : Str) : AppState :=
  applyFiltersState { st with searchQuery := handleSearchQuery raw }

/-! Chat module (the chat script served alongside `app.js`). -/

/-- The per-episode metadata included in `availableEpisodes` by
`getContextForChat`. -/
structure EpisodeCtx where
  guest : Str
  title : Str
  keywords : List Str
deriving DecidableEq

/-- The open-episode context included by `getContextForChat` when a
detail view is open: guest, title, keywords, and
`fullTranscript.substring(0, 8000)`. -/
structure CurrentEpisodeCtx where
  guest : Str
  title : Str
  keywords : List Str
  transcript : Str
deriving DecidableEq

/-- The object returned by `getContextForChat`. -/
structure ChatContext where
  totalEpisodes : Nat
  filteredEpisodes : Nat
  selectedKeywords : List Str
  currentEpisode : Option CurrentEpisodeCtx
  availableEpisodes : List EpisodeCtx
deriving DecidableEq

/-- Function `getContextForChat` (chat module): counts, the selected keywords, the
open episode (if any) with its transcript capped at 8000 code units, and
the first 10 filtered episodes' metadata. -/
def getContextForChat (st : AppState) : ChatContext where
  totalEpisodes := st.allEpisodes.length
  filteredEpisodes := st.filteredEpisodes.length
  selectedKeywords := st.selectedKeywords
  currentEpisode := st.currentEpisode.map (fun ce =>
    { guest := ce.episode.guest
      title := ce.episode.title
      keywords := ce.episode.keywords
      transcript := ce.fullTranscript.take 8000 })
  availableEpisodes := (st.filteredEpisodes.take 10).map (fun ep =>
    { guest := ep.guest, title := ep.title, keywords := ep.keywords })

/-- One `{role, content}` turn of the conversation history. -/
structure Turn where
  role : Str
  content : Str
deriving DecidableEq

/-- The history update both provider functions perform after a successful
response: push the user and assistant turns, then, if the history now
holds more than 10 turns, keep only the last 10 (`slice(-10)`). -/
def updateHistory (h : List Turn) (u a : Turn) : List Turn :=
  if 10 < (h ++ [u, a]).length then
    (h ++ [u, a]).drop ((h ++ [u, a]).length - 10)
  else h ++ [u, a]

/-- The history reached from an empty `conversationHistory` after a list
of successful exchanges. -/
def runExchanges (pairs : List (Turn × Turn)) : List Turn :=
  pairs.foldl (fun h p => updateHistory h p.1 p.2) []

/-- The two supported providers. -/
inductive Provider where
  | claude
  | openai
deriving DecidableEq

/-- Function `queryClaude`, parameterised by the outcome of the HTTP exchange
(`.error` covers both a rejected fetch and a non-ok response, carrying
the extracted message; `.ok` carries the reply text at
`data.content[0].text`). On error the function throws before touching
`conversationHistory`; on success it appends the turn pair and caps the
history. Returns the new history and the overall result. -/
def queryClaudeStep (h : List Turn) (message : Str)
    (fetchResult : Except Str Str) : List Turn × Except Str Str :=
  match fetchResult with
  | .error e => (h, .error e)
  | .ok text =>
    (updateHistory h { role := "user".data, content := message }
      { role := "assistant".data, content := text }, .ok text)

/-- Function `queryOpenAI`, modelled exactly like `queryClaudeStep` (the reply text
lives at `data.choices[0].message.content`; the history handling is
identical). -/
def queryOpenAIStep (h : List Turn) (message : Str)
    (fetchResult : Except Str Str) : List Turn × Except Str Str :=
  match fetchResult with
  | .error e => (h, .error e)
  | .ok text =>
    (updateHistory h { role := "user".data, content := message }
      { role := "assistant".data, content := text }, .ok text)

/-- The chat module's mutable state (`ChatState` object). -/
structure ChatStateM where
  apiKey : Str
  provider : Provider
  conversationHistory : List Turn
deriving DecidableEq

/-- What `sendChatMessage` displays/produces for one send attempt. -/
inductive ChatOutcome where
  | emptyMessage
  | authError
  | assistantReply (text : Str)
  | providerError (e : Str)
deriving DecidableEq

/-- Function `sendChatMessage`, parameterised by the HTTP outcome that `queryAI`
would observe. Returns the new chat state, the outcome, and the list of
network requests issued (one entry per provider call). An empty trimmed
message returns early; a missing API key reports an error before any
network call; otherwise `queryAI` dispatches on the provider. -/
def sendChatMessage (st : ChatStateM) (rawMessage : Str)
    (fetchResult : Except Str Str) : ChatStateM × ChatOutcome × List Provider :=
  let message := jsTrim rawMessage
  if message.isEmpty then (st, .emptyMessage, [])
  else if st.apiKey.isEmpty then (st, .authError, [])
  else
    let r := match st.provider with
      | .claude => queryClaudeStep st.conversationHistory message fetchResult
      | .openai => queryOpenAIStep st.conversationHistory message fetchResult
    match r.2 with
    | .ok t => ({ st with conversationHistory := r.1 }, .assistantReply t, [st.provider])
    | .error e => ({ st with conversationHistory := r.1 }, .providerError e, [st.provider])

/-! Transcript parsing (`parseTranscript`, app.js lines 291-299).

The code matches the fetched text against the JavaScript regular
expression `/^---\s*\n.*?\n---\s*\n(.*)$/s` and takes the capture group
as the body (falling back to the whole text when there is no match),
then trims it.  The model below follows the backtracking semantics of
that pattern: `\s*` is greedy, `.*?` is lazy, `(.*)$` with the `s` flag
always matches the entire remainder. -/

/-- All ways `\s*\n` can match a prefix of `l`, as the list of remainders,
ordered greedy-first (longest `\s*` first).  `\s*` can only stop right
before a `'\n'`, since the next pattern token is a literal newline. -/
def wsNlSplits : Str → List Str
  | [] => []
  | c :: rest =>
    if jsWs c then
      if c = '\n' then wsNlSplits rest ++ [rest] else wsNlSplits rest
    else []

/-- Match `\n---\s*\n` at the very start of `l`.  The continuation
`(.*)$` always succeeds, so the greedy first alternative of the inner
`\s*` is the one taken. -/
def matchSecondDelim : Str → Option Str
  | '\n' :: rest =>
    if jsStartsWith rest ("---".data) then (wsNlSplits (rest.drop 3)).head? else none
  | _ => none

/-- Lazy scan of `.*?\n---\s*\n`: try the second delimiter at each
position of `l`, earliest first, returning the remainder after it. -/
def findSecond : Str → Option Str
  | [] => none
  | l@(_ :: rest) =>
    match matchSecondDelim l with
    | some r => some r
    | none => findSecond rest

/-- All remainders after matching the leading `^---\s*\n`, ordered
greedy-first; empty when the text does not open with `---` followed by
whitespace ending in a newline. -/
def frontAlternatives (l : Str) : List Str :=
  if jsStartsWith l ("---".data) then wsNlSplits (l.drop 3) else []

/-- First successful capture across the outer backtracking
alternatives. -/
def firstCapture : List Str → Option Str
  | [] => none
  | a :: rest =>
    match findSecond a with
    | some r => some r
    | none => firstCapture rest

/-- The capture group of `/^---\s*\n.*?\n---\s*\n(.*)$/s` applied to `l`,
or `none` when the pattern does not match. -/
def regexCapture (l : Str) : Option Str :=
  firstCapture (frontAlternatives l)

/-- Function `parseTranscript` (app.js lines 291-299): the capture group if the
frontmatter pattern matches, the whole text otherwise, trimmed. -/
def parseTranscript (fullText : Str) : Str :=
  jsTrim ((regexCapture fullText).getD fullText)

/-! Concrete fixtures used by witnesses and counterexamples. -/

/-- An episode record with every field empty; fixtures override the
fields a scenario cares about. -/
def baseEpisode : Episode where
  slug := []
  guest := []
  title := []
  description := []
  keywords := []
  duration := []
  duration_seconds := 0
  view_count := 0
  youtube_url := []
  transcript_path := []

/-- Scenario episode with keywords `["growth"]`. -/
def epGrowth : Episode :=
  { baseEpisode with slug := ("e1".data), keywords := ["growth".data] }

/-- Scenario episode with keywords `["pricing", "growth"]`. -/
def epPricing : Episode :=
  { baseEpisode with slug := ("e2".data), keywords := ["pricing".data, "growth".data] }

/-- Scenario episode with keywords `["hiring"]`. -/
def epHiring : Episode :=
  { baseEpisode with slug := ("e3".data), keywords := ["hiring".data] }

/-- Counterexample episode for the search-concatenation reading:
guest `"ab"`, title `"cd"`. -/
def epAB : Episode :=
  { baseEpisode with guest := ("ab".data), title := ("cd".data) }

/-- Scenario episode whose guest field contains `"Chesky"`. -/
def epChesky : Episode :=
  { baseEpisode with guest := ("Brian Chesky".data) }

/-- The search text as the specification sentence for the search filter
literally reads: the plain concatenation of guest, title, description and
the (space-joined) keywords, case-folded, with no separator between the
fields.  Kept separate from `searchText`, which is the text the code
actually builds. -/
def searchConcatSpec (ep : Episode) : Str :=
  jsLower (ep.guest ++ ep.title ++ ep.description ++ joinSpace ep.keywords)

/-! Membership through the two filter stages. -/

/-- Membership in the keyword stage: kept iff already present and either
no keyword is selected or every selected keyword is on the episode. -/
theorem mem_keywordFilterStep {sel : List Str} {eps : List Episode} {ep : Episode} :
    ep ∈ keywordFilterStep sel eps ↔
      ep ∈ eps ∧ (sel.isEmpty || sel.all (fun k => ep.keywords.contains k)) := by
  unfold keywordFilterStep
  by_cases h : sel.isEmpty <;> simp [h, List.mem_filter]

/-- Membership in the search stage: kept iff already present and either
the query is empty or the episode's search text includes it. -/
theorem mem_searchFilterStep {q : Str} {eps : List Episode} {ep : Episode} :
    ep ∈ searchFilterStep q eps ↔
      ep ∈ eps ∧ (q.isEmpty || jsIncludes (searchText ep) q) := by
  unfold searchFilterStep
  by_cases h : q.isEmpty <;> simp [h, List.mem_filter]

/-- C1: with a non-empty keyword selection the keyword stage of
`applyFilters` keeps a record iff every selected keyword is present in the
record's keyword list (AND across the selection, never OR), and with an
empty selection the keyword stage removes nothing. -/
theorem keywordFilter_and_semantics (eps : List Episode) (sel : List Str) (ep : Episode)
    (hsel : sel ≠ []) :
    (ep ∈ keywordFilterStep sel eps ↔
      ep ∈ eps ∧ ∀ k ∈ sel, ep.keywords.contains k) ∧
    keywordFilterStep [] eps = eps := by
  constructor
  · rw [mem_keywordFilterStep]
    have h : sel.isEmpty = false := by simpa [List.isEmpty_iff] using hsel
    simp [h, List.all_eq_true]
  · simp [keywordFilterStep]

/-- C1 witness: the spec scenario — three episodes with keywords
`[["growth"], ["pricing", "growth"], ["hiring"]]` and selection
`["growth"]` — instantiates the theorem; the stage indeed yields the
first two episodes in their original relative order. -/
theorem keywordFilter_and_semantics_witness :
    (keywordFilterStep ["growth".data] [epGrowth, epPricing, epHiring] =
      [epGrowth, epPricing]) ∧
    (["growth".data] ≠ ([] : List Str)) ∧
    ((epPricing ∈ keywordFilterStep ["growth".data] [epGrowth, epPricing, epHiring] ↔
        epPricing ∈ [epGrowth, epPricing, epHiring] ∧
          ∀ k ∈ ["growth".data], epPricing.keywords.contains k) ∧
      keywordFilterStep [] [epGrowth, epPricing, epHiring] =
        [epGrowth, epPricing, epHiring]) :=
  ⟨by decide, by decide,
    keywordFilter_and_semantics [epGrowth, epPricing, epHiring] ["growth".data] epPricing
      (by decide)⟩

/-- C2 counterexample: with guest `"ab"`, title `"cd"` and query `"bc"`,
the case-folded plain concatenation of the fields contains the query, yet
the code's search filter drops the record — the claimed biconditional
fails because the code separates the fields with newline and indentation
inside its template literal. -/
theorem searchFilter_concat_counterexample :
    jsIncludes (searchConcatSpec epAB) ("bc".data) = true ∧
    (("bc".data : Str) ≠ []) ∧
    epAB ∈ [epAB] ∧
    searchFilterStep ("bc".data) [epAB] = [] := by decide

/-- C2 (amended): with a non-empty stored query, a record survives the
search stage iff the case-folded text built from guest, title,
description and the space-joined keywords — each field preceded by a
newline plus indentation, as the code's template literal builds it —
contains the query as a substring. -/
theorem searchFilterStep_membership (eps : List Episode) (q : Str) (ep : Episode)
    (hq : q ≠ []) :
    ep ∈ searchFilterStep q eps ↔ ep ∈ eps ∧ jsIncludes (searchText ep) q := by
  rw [mem_searchFilterStep]
  have h : q.isEmpty = false := by simpa [List.isEmpty_iff] using hq
  simp [h]

/-- C2 witness: the spec scenario — searching `"chesky"` against the one
episode whose guest contains `"Chesky"` — instantiates the theorem, and
that episode does survive the search stage. -/
theorem searchFilterStep_membership_witness :
    (searchFilterStep ("chesky".data) [epChesky] = [epChesky]) ∧
    (("chesky".data : Str) ≠ []) ∧
    (epChesky ∈ searchFilterStep ("chesky".data) [epChesky] ↔
      epChesky ∈ [epChesky] ∧ jsIncludes (searchText epChesky) ("chesky".data)) :=
  ⟨by decide, by decide,
    searchFilterStep_membership [epChesky] ("chesky".data) epChesky (by decide)⟩

/-- C9: removing one keyword from a selection containing it never shrinks
the filtered result — any record kept by `applyFilters` for the larger
selection is kept for the smaller one, whatever the search query. -/
theorem applyFilters_remove_keyword_monotone (eps : List Episode) (sel : List Str)
    (q : Str) (k : Str) (ep : Episode) (hk : k ∈ sel)
    (hmem : ep ∈ applyFilters eps sel q) :
    ep ∈ applyFilters eps (sel.filter (fun x => decide (x ≠ k))) q := by
  unfold applyFilters at hmem ⊢
  rw [mem_searchFilterStep] at hmem ⊢
  refine ⟨?_, hmem.2⟩
  have h1 := hmem.1
  rw [mem_keywordFilterStep] at h1 ⊢
  refine ⟨h1.1, ?_⟩
  have hsel : sel.isEmpty = false := by
    cases sel with
    | nil => cases hk
    | cons a l => rfl
  have hall := h1.2
  rw [hsel, Bool.false_or] at hall
  rw [List.all_eq_true] at hall
  have hall' : (sel.filter (fun x => decide (x ≠ k))).all
      (fun j => ep.keywords.contains j) = true := by
    rw [List.all_eq_true]
    exact fun j hj => hall j (List.mem_of_mem_filter hj)
  rw [hall', Bool.or_true]

/-- Relation `strLe` is total. -/
theorem strLe_total : ∀ a b : Str, (strLe a b || strLe b a) = true := by
  intro a
  induction a with
  | nil => intro b; simp [strLe]
  | cons x xs ih =>
    intro b
    cases b with
    | nil => simp [strLe]
    | cons y ys =>
      rcases lt_trichotomy x y with h | h | h
      · simp [strLe, h]
      · subst h
        simpa [strLe] using ih ys
      · simp [strLe, h, lt_asymm h]

/-- Relation `strLe` is transitive. -/
theorem strLe_trans : ∀ a b c : Str,
    strLe a b = true → strLe b c = true → strLe a c = true := by
  intro a
  induction a with
  | nil => intro b c _ _; simp [strLe]
  | cons x xs ih =>
    intro b c hab hbc
    cases b with
    | nil => simp [strLe] at hab
    | cons y ys =>
      cases c with
      | nil => simp [strLe] at hbc
      | cons z zs =>
        rcases lt_trichotomy x y with hxy | hxy | hxy
        · rcases lt_trichotomy y z with hyz | hyz | hyz
          · simp [strLe, lt_trans hxy hyz]
          · subst hyz; simp [strLe, hxy]
          · simp [strLe, hyz, lt_asymm hyz] at hbc
        · subst hxy
          simp only [strLe, lt_irrefl, if_false] at hab
          rcases lt_trichotomy x z with hxz | hxz | hxz
          · simp [strLe, hxz]
          · subst hxz
            simp only [strLe, lt_irrefl, if_false] at hbc ⊢
            exact ih ys zs hab hbc
          · simp [strLe, hxz, lt_asymm hxz] at hbc
        · simp [strLe, hxy, lt_asymm hxy] at hab

/-- A comparator of the shape `decide (g b ≤ g a)` (descending by a
numeric key) is transitive. -/
theorem descKey_trans {α : Type} (g : α → Nat) :
    ∀ a b c : α, decide (g b ≤ g a) = true → decide (g c ≤ g b) = true →
      decide (g c ≤ g a) = true := by
  intro a b c h1 h2
  simp only [decide_eq_true_eq] at h1 h2 ⊢
  omega

/-- A comparator of the shape `decide (g b ≤ g a)` is total. -/
theorem descKey_total {α : Type} (g : α → Nat) :
    ∀ a b : α, (decide (g b ≤ g a) || decide (g a ≤ g b)) = true := by
  intro a b
  simp only [Bool.or_eq_true, decide_eq_true_eq]
  omega

/-- C3: sorting by views yields pairwise non-increasing `view_count`,
sorting by duration yields pairwise non-increasing `duration_seconds`,
sorting by guest yields pairwise ascending lexicographic guest names, and
every sort mode returns a permutation of its input, so switching modes
never changes membership. -/
theorem sortEpisodes_sorted_and_perm (eps : List Episode) :
    ((sortEpisodes SortMode.views eps).Pairwise
      (fun a b => b.view_count ≤ a.view_count)) ∧
    ((sortEpisodes SortMode.duration eps).Pairwise
      (fun a b => b.duration_seconds ≤ a.duration_seconds)) ∧
    ((sortEpisodes SortMode.title eps).Pairwise
      (fun a b => strLe a.guest b.guest = true)) ∧
    (∀ mode, (sortEpisodes mode eps).Perm eps) := by
  refine ⟨?_, ?_, ?_, ?_⟩
  · have h := List.sorted_mergeSort
      (descKey_trans (fun e : Episode => e.view_count))
      (descKey_total (fun e : Episode => e.view_count)) eps
    exact h.imp (fun hab => of_decide_eq_true hab)
  · have h := List.sorted_mergeSort
      (descKey_trans (fun e : Episode => e.duration_seconds))
      (descKey_total (fun e : Episode => e.duration_seconds)) eps
    exact h.imp (fun hab => of_decide_eq_true hab)
  · exact List.sorted_mergeSort
      (fun a b c => strLe_trans a.guest b.guest c.guest)
      (fun a b => strLe_total a.guest b.guest) eps
  · intro mode
    cases mode <;> exact List.mergeSort_perm eps _

/-- C9 witness: with both `"growth"` and `"pricing"` selected, the episode
carrying both keywords survives, and it still survives after `"pricing"`
is removed from the selection. -/
theorem applyFilters_remove_keyword_monotone_witness :
    (("pricing".data) ∈ ["growth".data, "pricing".data]) ∧
    (epPricing ∈ applyFilters [epGrowth, epPricing] ["growth".data, "pricing".data] []) ∧
    epPricing ∈ applyFilters [epGrowth, epPricing]
      ((["growth".data, "pricing".data]).filter (fun x => decide (x ≠ ("pricing".data)))) [] :=
  ⟨by decide, by decide,
    applyFilters_remove_keyword_monotone [epGrowth, epPricing]
      ["growth".data, "pricing".data] [] ("pricing".data) epPricing
      (by decide) (by decide)⟩

/-- C4: the chat context exposes the total and filtered episode counts
and the selected keywords; when a detail view is open its
`currentEpisode` carries the open episode's guest/title/keywords and the
first 8000 code units of its transcript body (never more); and
`availableEpisodes` is always the first 10 filtered episodes'
guest/title/keywords, hence never longer than 10. -/
theorem getContextForChat_spec (st : AppState) :
    (getContextForChat st).totalEpisodes = st.allEpisodes.length ∧
    (getContextForChat st).filteredEpisodes = st.filteredEpisodes.length ∧
    (getContextForChat st).selectedKeywords = st.selectedKeywords ∧
    (getContextForChat st).currentEpisode = st.currentEpisode.map (fun ce =>
      { guest := ce.episode.guest
        title := ce.episode.title
        keywords := ce.episode.keywords
        transcript := ce.fullTranscript.take 8000 }) ∧
    (∀ c ∈ (getContextForChat st).currentEpisode, c.transcript.length ≤ 8000) ∧
    (getContextForChat st).availableEpisodes =
      (st.filteredEpisodes.take 10).map (fun ep =>
        { guest := ep.guest, title := ep.title, keywords := ep.keywords }) ∧
    (getContextForChat st).availableEpisodes.length ≤ 10 := by
  refine ⟨rfl, rfl, rfl, rfl, ?_, rfl, ?_⟩
  · intro c hc
    simp only [getContextForChat, Option.mem_def, Option.map_eq_some'] at hc
    obtain ⟨ce, _, hce⟩ := hc
    subst hce
    exact List.length_take_le 8000 ce.fullTranscript
  · simp only [getContextForChat, List.length_map, List.length_take]
    omega

/-- The length `updateHistory` leaves: the pushed length, capped at 10. -/
theorem updateHistory_length (h : List Turn) (u a : Turn) :
    (updateHistory h u a).length = min (h.length + 2) 10 := by
  unfold updateHistory
  by_cases hl : 10 < (h ++ [u, a]).length
  · rw [if_pos hl, List.length_drop]
    rw [List.length_append] at hl ⊢
    simp at hl ⊢
    omega
  · rw [if_neg hl]
    rw [List.length_append] at hl ⊢
    simp at hl ⊢
    omega

/-- Function `updateHistory` keeps a suffix of the pushed history: the most recent
turns survive, the oldest are dropped. -/
theorem updateHistory_suffix (h : List Turn) (u a : Turn) :
    updateHistory h u a <:+ h ++ [u, a] := by
  unfold updateHistory
  by_cases hl : 10 < (h ++ [u, a]).length
  · rw [if_pos hl]
    exact List.drop_suffix _ _
  · rw [if_neg hl]

/-- Folding exchanges preserves the 10-turn bound. -/
theorem foldExchanges_length_le :
    ∀ (pairs : List (Turn × Turn)) (h : List Turn), h.length ≤ 10 →
      (pairs.foldl (fun h p => updateHistory h p.1 p.2) h).length ≤ 10
  | [], _, hh => hh
  | _ :: ps, h, _ =>
    foldExchanges_length_le ps _ (by rw [updateHistory_length]; omega)

/-- C5: after any number of completed exchanges starting from an empty
history the conversation history holds at most 10 turns; each successful
exchange appends the `{user, assistant}` pair and keeps only a suffix
(the most recent turns) of the pushed history, of length
`min (previous + 2) 10`. -/
theorem conversationHistory_cap (pairs : List (Turn × Turn)) (h : List Turn)
    (u a : Turn) :
    (runExchanges pairs).length ≤ 10 ∧
    updateHistory h u a <:+ h ++ [u, a] ∧
    (updateHistory h u a).length = min (h.length + 2) 10 :=
  ⟨foldExchanges_length_le pairs [] (by simp),
    updateHistory_suffix h u a, updateHistory_length h u a⟩

/-- C6: a send with a non-empty message and no configured API key reports
the auth error immediately: the state is unchanged and no network request
is issued to either provider. -/
theorem sendChatMessage_authError (st : ChatStateM) (raw : Str)
    (fr : Except Str Str) (hmsg : jsTrim raw ≠ []) (hkey : st.apiKey = []) :
    sendChatMessage st raw fr = (st, ChatOutcome.authError, []) := by
  have h1 : (jsTrim raw).isEmpty = false := by
    simpa [List.isEmpty_iff] using hmsg
  unfold sendChatMessage
  rw [if_neg (by simp [h1]), if_pos (by simp [hkey])]

/-- The chat state with no API key used by the C6 witness. -/
def chatNoKey : ChatStateM where
  apiKey := []
  provider := Provider.claude
  conversationHistory := []

/-- C6 witness: sending `"hi"` with no key configured yields the auth
error, no state change and no network call, whatever the transport would
have answered. -/
theorem sendChatMessage_authError_witness :
    (jsTrim ("hi".data) ≠ []) ∧ chatNoKey.apiKey = [] ∧
    sendChatMessage chatNoKey ("hi".data) (Except.error ("boom".data)) =
      (chatNoKey, ChatOutcome.authError, []) :=
  ⟨by decide, rfl,
    sendChatMessage_authError chatNoKey ("hi".data)
      (Except.error ("boom".data)) (by decide) rfl⟩

/-- C10: when the HTTP exchange fails, both provider functions leave the
conversation history exactly as it was and propagate the error; the turn
pair is appended (then capped) only on success; and a failed
`sendChatMessage` leaves the whole chat state unchanged. -/
theorem queryProvider_error_atomic (h : List Turn) (msg e t : Str)
    (st : ChatStateM) (raw : Str) :
    queryClaudeStep h msg (Except.error e) = (h, Except.error e) ∧
    queryOpenAIStep h msg (Except.error e) = (h, Except.error e) ∧
    (queryClaudeStep h msg (Except.ok t)).1 =
      updateHistory h { role := ("user".data), content := msg }
        { role := ("assistant".data), content := t } ∧
    (queryOpenAIStep h msg (Except.ok t)).1 =
      updateHistory h { role := ("user".data), content := msg }
        { role := ("assistant".data), content := t } ∧
    (sendChatMessage st raw (Except.error e)).1 = st := by
  refine ⟨rfl, rfl, rfl, rfl, ?_⟩
  unfold sendChatMessage
  by_cases h1 : (jsTrim raw).isEmpty
  · rw [if_pos (by simp [h1])]
  · rw [if_neg (by simp [h1])]
    by_cases h2 : st.apiKey.isEmpty
    · rw [if_pos (by simp [h2])]
    · rw [if_neg (by simp [h2])]
      cases hp : st.provider <;> simp [queryClaudeStep, queryOpenAIStep] <;> rw [← hp]

/-- C7 counterexample: on a transcript without the frontmatter delimiter
the code does NOT return the fetched text unmodified — it trims it:
`" hello "` parses to `"hello"`. -/
theorem parseTranscript_trim_counterexample :
    regexCapture (" hello ".data) = none ∧
    parseTranscript (" hello ".data) ≠ (" hello ".data) ∧
    parseTranscript (" hello ".data) = ("hello".data) := by decide

/-- C7 (amended): when the frontmatter delimiter pattern is absent, the
parsed body is the full fetched text with leading and trailing whitespace
trimmed (and otherwise unmodified). -/
theorem parseTranscript_no_marker (t : Str) (hm : regexCapture t = none) :
    parseTranscript t = jsTrim t := by
  unfold parseTranscript
  rw [hm]
  rfl

/-- C7 witness: a marker-less transcript instantiates the theorem. -/
theorem parseTranscript_no_marker_witness :
    regexCapture ("plain text".data) = none ∧
    parseTranscript ("plain text".data) = jsTrim ("plain text".data) :=
  ⟨by decide, parseTranscript_no_marker ("plain text".data) (by decide)⟩

/-- Episode fixture carrying keyword `"b"`, used by the C8
counterexample. -/
def epB : Episode :=
  { baseEpisode with slug := ("eb".data), keywords := ["b".data] }

/-- Index fixture whose `all_keywords` lists `"a"` (unused, count 0)
before `"b"` (count 1). -/
def idxAB : IndexData where
  total_episodes := 1
  all_keywords := ["a".data, "b".data]
  episodes := [epB]

/-- App-state fixture for the C8 counterexample. -/
def stAB : AppState where
  indexData := idxAB
  allEpisodes := [epB]
  filteredEpisodes := [epB]
  selectedKeywords := []
  currentSort := SortMode.views
  searchQuery := []
  currentEpisode := none

/-- Sorting never changes membership. -/
theorem mem_sortEpisodes {mode : SortMode} {l : List Episode} {ep : Episode} :
    ep ∈ sortEpisodes mode l ↔ ep ∈ l := by
  cases mode <;> exact List.mem_mergeSort

/-- C8 counterexample: `renderKeywordFilters` mutates the loaded index
document — line 90 of app.js sorts `indexData.all_keywords` in place by
descending episode count, so on `stAB` the index after rendering differs
from the index after load (its `all_keywords` order changes). -/
theorem renderKeywordFilters_mutates_counterexample :
    (renderKeywordFilters stAB).indexData ≠ stAB.indexData := by
  intro heq
  have hkw : (stAB.indexData.all_keywords.mergeSort
      (fun a b => decide (keywordCount stAB.allEpisodes b ≤ keywordCount stAB.allEpisodes a))) =
      stAB.indexData.all_keywords :=
    congrArg IndexData.all_keywords heq
  have hsorted := List.sorted_mergeSort
    (descKey_trans (keywordCount stAB.allEpisodes))
    (descKey_total (keywordCount stAB.allEpisodes))
    stAB.indexData.all_keywords
  rw [hkw] at hsorted
  have hlist : stAB.indexData.all_keywords = ["a".data, "b".data] := rfl
  rw [hlist] at hsorted
  have hle := (List.pairwise_cons.mp hsorted).1 ("b".data) (by simp)
  revert hle
  decide

/-- C8 (amended): after load, filtering, searching and sorting never
touch the index document or the episode store, and every displayed record
is one of the loaded records, unmutated; `renderKeywordFilters`, however,
reorders `indexData.all_keywords` in place (a permutation, sorted by
descending keyword count) while leaving the episodes sequence and the
episode store unchanged. -/
theorem pipeline_preserves_index (st : AppState) (raw : Str) :
    (applyFiltersState st).indexData = st.indexData ∧
    (applyFiltersState st).allEpisodes = st.allEpisodes ∧
    (sortEpisodesState st).indexData = st.indexData ∧
    (sortEpisodesState st).allEpisodes = st.allEpisodes ∧
    (handleSearchState st raw).indexData = st.indexData ∧
    (handleSearchState st raw).allEpisodes = st.allEpisodes ∧
    (renderKeywordFilters st).indexData.episodes = st.indexData.episodes ∧
    (renderKeywordFilters st).allEpisodes = st.allEpisodes ∧
    ((renderKeywordFilters st).indexData.all_keywords).Perm
      st.indexData.all_keywords ∧
    (∀ ep ∈ (applyFiltersState st).filteredEpisodes, ep ∈ st.allEpisodes) := by
  refine ⟨rfl, rfl, rfl, rfl, rfl, rfl, rfl, rfl, ?_, ?_⟩
  · exact List.mergeSort_perm _ _
  · intro ep hm
    simp only [applyFiltersState] at hm
    rw [mem_sortEpisodes] at hm
    unfold applyFilters at hm
    exact (mem_keywordFilterStep.mp (mem_searchFilterStep.mp hm).1).1

end Podcast
